import Mathlib

/-!
# Verification of the GuitarTrainer chord detection and practice session logic

Shallow embedding of the chord detector (`chord_detector.py`), the chord
trainer's MIDI strum state machine (`guitar_trainer_chords.py`), the regular
practice mode (`practice_modes.py`) and the application controller
(`guitar_trainer_app.py`), together with proofs settling the claims about
them.

Conventions:
- Python `None` becomes `Option.none`; a Python list of six slots becomes a
  `List (Option ℕ)` of length 6, indexed exactly as in the source
  (string 6 at index 0, string 1 at index 5).
- Python sets of MIDI notes become `Finset ℕ`.
- Python dicts keyed by chord name become association lists
  (`List (String × List ℕ)`) looked up with `List.lookup`; all keys are
  distinct in the source tables, so lookup agrees with dict access.
- Python exceptions (TypeError from a wrong-arity call, IndexError from an
  out-of-range list index) become `Except`/`Option` error values.
-/

namespace GuitarTrainer

/-! ## config.py -/

/-- `OPEN_STRING_NOTES` from `config.py` (identical in
`guitar_trainer_chords.py`): open-string MIDI pitch for strings 1–6. -/
def OPEN_STRING_NOTES : List ℕ := [64, 59, 55, 50, 45, 40]

/-- `CHORD_MIDI_NOTES` from `config.py`: chord name → the six expected MIDI
notes (strings 1–6).  This is the table imported by `chord_detector.py`. -/
def CHORD_MIDI_NOTES : List (String × List ℕ) := [
  ("A",   [64, 61, 57, 52, 45, 40]),
  ("Am",  [64, 60, 57, 52, 45, 40]),
  ("A7",  [64, 61, 55, 52, 45, 40]),
  ("B",   [66, 63, 59, 54, 45, 40]),
  ("Bm",  [66, 62, 59, 54, 45, 40]),
  ("B7",  [66, 59, 57, 51, 47, 40]),
  ("C",   [64, 60, 55, 52, 48, 40]),
  ("Cm",  [64, 60, 55, 52, 48, 40]),
  ("C7",  [64, 60, 58, 52, 48, 40]),
  ("D",   [66, 62, 57, 50, 45, 40]),
  ("Dm",  [65, 62, 57, 50, 45, 40]),
  ("D7",  [66, 60, 57, 50, 45, 40]),
  ("E",   [64, 59, 56, 52, 47, 40]),
  ("Em",  [64, 59, 55, 52, 47, 40]),
  ("E7",  [64, 59, 56, 50, 47, 40]),
  ("F",   [65, 60, 57, 53, 45, 40]),
  ("Fm",  [65, 60, 56, 53, 45, 40]),
  ("F7",  [65, 60, 57, 51, 45, 40]),
  ("G",   [67, 59, 55, 50, 47, 43]),
  ("Gm",  [67, 62, 58, 50, 45, 40]),
  ("G7",  [65, 59, 55, 50, 47, 43]),
  ("D6/9", [64, 59, 55, 50, 47, 42]),
  ("G/B",  [64, 59, 55, 50, 47, 42]),
  ("Am7",  [64, 59, 55, 50, 47, 42]),
  ("D7/F#", [64, 59, 55, 50, 47, 42])]

/-- `SELECTION_NOTES` from `config.py` / `guitar_trainer_chords.py`:
22nd-fret menu-trigger notes. -/
def SELECTION_NOTES : List ℕ := [86, 81, 77, 72, 67, 62]

/-! ## chord_detector.py — `ChordDetector` -/

/-- The sequence of `(midi_note, string_num)` insertions performed by
`ChordDetector._create_string_map`: for `string_num` in `range(6, 0, -1)`
and `fret` in `range(25)`, insert `open_note + fret ↦ string_num`.
A later insertion for the same key overwrites an earlier one (dict
semantics). -/
def mapWrites : List (ℕ × ℕ) :=
  ([6, 5, 4, 3, 2, 1] : List ℕ).flatMap fun string_n =>
    (List.range 25).map fun fret =>
      (OPEN_STRING_NOTES.getD (string_n - 1) 0 + fret, string_n)

/-- `ChordDetector.string_number_map.get(note)`: the dict built by
`_create_string_map`, i.e. for each key the **last** write in `mapWrites`
wins.  Looking up the reversed write list with `find?` returns exactly that
last write. -/
def string_number_map (note : ℕ) : Option ℕ :=
  (mapWrites.reverse.find? (fun p => p.1 == note)).map (fun p => p.2)

/-- The detector's initial `played_notes` table: `[None] * 6`
(string 6 at index 0, …, string 1 at index 5).  Also produced by
`ChordDetector.reset`. -/
def emptyPlayed : List (Option ℕ) := [none, none, none, none, none, none]

/-- `ChordDetector.add_note(note)`.  Returns the updated `played_notes`
table and the Python return value (`None` when the note is not in the
string map, else the storage index `string_num`).  Mirrors
`chord_detector.py` lines 22–53, including the note-59 special case
(`note == 59 and self.played_notes[4] is not None and
self.played_notes[3] is None` reassigns the note to string 3) and the
keep-the-higher-note rule. -/
def add_note (played : List (Option ℕ)) (note : ℕ) :
    List (Option ℕ) × Option ℕ :=
  match string_number_map note with
  | none => (played, none)
  | some string_n0 =>
    let string_n :=
      if note = 59 ∧ played.getD 4 none ≠ none ∧ played.getD 3 none = none
      then 3 else string_n0
    let string_num := 6 - string_n
    match played.getD string_num none with
    | none => (played.set string_num (some note), some string_num)
    | some current =>
      if current < note then (played.set string_num (some note), some string_num)
      else (played, some string_num)

/-- `ChordDetector.get_played_notes`: the set of non-`None` entries of the
table. -/
def get_played_notes (played : List (Option ℕ)) : Finset ℕ :=
  (played.filterMap id).toFinset

/-- Result quadruple of `ChordDetector.detect_chord`:
`(is_correct, matching, missing, extra)`. -/
abbrev DetectResult :=
  Bool × Option (Finset ℕ) × Option (Finset ℕ) × Option (Finset ℕ)

/-- The `non_open_expected` set computed inside `detect_chord`: expected
notes of the target chord with every note that occurs in
`OPEN_STRING_NOTES` filtered out. -/
def non_open_expected (target_chord : String) : Finset ℕ :=
  (((CHORD_MIDI_NOTES.lookup target_chord).getD []).toFinset).filter
    (fun n => n ∉ OPEN_STRING_NOTES)

/-- `ChordDetector.detect_chord(played_chords, target_chord)`.
`played` is the detector's own `self.played_notes` table; `played_chords`
is the first (never read) Python argument.  Mirrors `chord_detector.py`
lines 63–89: when `non_open_expected` is empty it returns
`(False, None, None, None)`; otherwise the superset verdict together with
the matching/missing/extra sets. -/
def detect_chord (played : List (Option ℕ)) (played_chords : List (Option ℕ))
    (target_chord : String) : DetectResult :=
  let played_notes := get_played_notes played
  let noe := non_open_expected target_chord
  if noe = ∅ then (false, none, none, none)
  else (decide (noe ⊆ played_notes),
        some (played_notes ∩ noe),
        some (noe \ played_notes),
        some (played_notes \ noe))

end GuitarTrainer

namespace GuitarTrainer

/-! ## Helper lemmas about the detector -/

/-- The `expected_notes` set built inside `detect_chord` (step 1 of the
matcher): the target chord's table entry as a set, empty when the name is
absent. -/
def expected_notes (target_chord : String) : Finset ℕ :=
  ((CHORD_MIDI_NOTES.lookup target_chord).getD []).toFinset

theorem non_open_expected_eq_sdiff (t : String) :
    non_open_expected t = expected_notes t \ OPEN_STRING_NOTES.toFinset := by
  unfold non_open_expected expected_notes
  rw [Finset.sdiff_eq_filter]
  exact Finset.filter_congr (fun n _ => by simp)

theorem open_not_mem_non_open {t : String} {n : ℕ}
    (hn : n ∈ OPEN_STRING_NOTES) : n ∉ non_open_expected t := by
  unfold non_open_expected
  intro hmem
  exact (Finset.mem_filter.mp hmem).2 hn

set_option maxRecDepth 4096 in
theorem mem_mapWrites_string_bounds :
    ∀ p ∈ mapWrites, 1 ≤ p.2 ∧ p.2 ≤ 6 := by decide

set_option maxRecDepth 4096 in
theorem mem_mapWrites_string_two :
    ∀ p ∈ mapWrites, p.2 = 2 → 59 ≤ p.1 := by decide

theorem string_number_map_mem {n s : ℕ} (h : string_number_map n = some s) :
    ∃ p ∈ mapWrites, p.1 = n ∧ p.2 = s := by
  unfold string_number_map at h
  obtain ⟨p, hp, hps⟩ := Option.map_eq_some'.mp h
  refine ⟨p, List.mem_reverse.mp (List.mem_of_find?_eq_some hp), ?_, hps⟩
  have := List.find?_some hp
  simpa using this

theorem string_number_map_bounds {n s : ℕ}
    (h : string_number_map n = some s) : 1 ≤ s ∧ s ≤ 6 := by
  obtain ⟨p, hpmem, _, hp2⟩ := string_number_map_mem h
  exact hp2 ▸ mem_mapWrites_string_bounds p hpmem

theorem string_number_map_two_ge {n : ℕ}
    (h : string_number_map n = some 2) : 59 ≤ n := by
  obtain ⟨p, hpmem, hp1, hp2⟩ := string_number_map_mem h
  exact hp1 ▸ mem_mapWrites_string_two p hpmem hp2

theorem string_number_map_59 : string_number_map 59 = some 2 := by decide

theorem getD_set_self {l : List (Option ℕ)} {k : ℕ} (hk : k < l.length)
    (a : Option ℕ) : (l.set k a).getD k none = a := by
  simp [List.getD_eq_getElem?_getD, List.getElem?_set_eq_of_lt a hk]

theorem getD_set_ne {l : List (Option ℕ)} {k j : ℕ} (hkj : k ≠ j)
    (a : Option ℕ) : (l.set k a).getD j none = l.getD j none := by
  simp [List.getD_eq_getElem?_getD, List.getElem?_set_ne hkj]

end GuitarTrainer

namespace GuitarTrainer

theorem emptyPlayed_getD : ∀ k, emptyPlayed.getD k none = none := by
  intro k
  rcases k with _ | _ | _ | _ | _ | _ | k <;> rfl

/-- Removing every occurrence of the note `n` from the detector table:
used to express that the presence or absence of an open-string note in the
played table is irrelevant to the match verdict. -/
def prune (n : ℕ) (played : List (Option ℕ)) : List (Option ℕ) :=
  played.map (fun o => if o = some n then none else o)

theorem mem_get_played_prune {x n : ℕ} {played : List (Option ℕ)} :
    x ∈ get_played_notes (prune n played) ↔
      x ∈ get_played_notes played ∧ x ≠ n := by
  induction played with
  | nil => simp [get_played_notes, prune]
  | cons o t ih =>
    cases o with
    | none => simpa [get_played_notes, prune, List.filterMap_cons] using ih
    | some v =>
      simp only [get_played_notes, List.mem_toFinset] at ih ⊢
      by_cases hv : v = n
      · subst hv
        simp [prune, List.filterMap_cons, List.mem_cons, ih]
        tauto
      · simp [prune, List.filterMap_cons, List.mem_cons, ih, hv]
        constructor
        · rintro (rfl | ⟨hmem, hne⟩)
          · exact ⟨Or.inl rfl, hv⟩
          · exact ⟨Or.inr hmem, hne⟩
        · rintro ⟨rfl | hmem, hne⟩
          · exact Or.inl rfl
          · exact Or.inr ⟨hmem, hne⟩

/-- C1.  For every chord name present in the table whose non-open expected
set is non-empty, and for every detector table state, `detect_chord`
answers `is_correct = true` exactly when the set of played notes is a
superset of the chord's expected notes minus the open-string tuning notes;
consequently extra played notes can never turn a correct verdict into an
incorrect one. -/
theorem claim_C1 (target : String) (notes : List ℕ)
    (hlook : CHORD_MIDI_NOTES.lookup target = some notes)
    (hne : non_open_expected target ≠ ∅)
    (played played_chords : List (Option ℕ)) :
    ((detect_chord played played_chords target).1 = true ↔
      expected_notes target \ OPEN_STRING_NOTES.toFinset ⊆ get_played_notes played)
    ∧ (∀ played2 : List (Option ℕ),
        get_played_notes played ⊆ get_played_notes played2 →
        (detect_chord played played_chords target).1 = true →
        (detect_chord played2 played_chords target).1 = true) := by
  have key : ∀ p : List (Option ℕ),
      (detect_chord p played_chords target).1 = true ↔
        non_open_expected target ⊆ get_played_notes p := by
    intro p
    unfold detect_chord
    rw [if_neg hne]
    exact decide_eq_true_iff
  refine ⟨?_, ?_⟩
  · rw [key played, non_open_expected_eq_sdiff]
  · intro p2 hsub h1
    exact (key p2).mpr (fun x hx => hsub ((key played).mp h1 hx))

/-- Witness for C1 at the chord "Em" and a full strummed Em table. -/
theorem claim_C1_witness :
    (detect_chord [some 40, some 47, some 52, some 55, some 59, some 64]
      [] "Em").1 = true :=
  ((claim_C1 "Em" [64, 59, 55, 52, 47, 40] (by decide) (by decide)
    [some 40, some 47, some 52, some 55, some 59, some 64] []).1).mpr (by decide)

/-- C2 counterexample.  For the absent chord name "Zz" the expected set is
empty, and `detect_chord` returns `is_correct = False` (lines 78–79 of
`chord_detector.py`), not `True` as the claim states. -/
theorem claim_C2_counterexample :
    ¬ ((detect_chord emptyPlayed [] "Zz").1 = true) := by decide

/-- C2 amended.  An absent chord name yields an empty expected set, and an
empty non-open expected set makes `detect_chord` return
`(False, None, None, None)` — an explicit early-out, not `True` and not an
error. -/
theorem claim_C2_amended (target : String) (played pc : List (Option ℕ)) :
    (CHORD_MIDI_NOTES.lookup target = none → non_open_expected target = ∅)
    ∧ (non_open_expected target = ∅ →
        detect_chord played pc target = (false, none, none, none)) := by
  constructor
  · intro h
    simp [non_open_expected, h]
  · intro h
    unfold detect_chord
    rw [if_pos h]

/-- Witness for the amended C2 at the absent name "Zz". -/
theorem claim_C2_witness :
    detect_chord emptyPlayed [] "Zz" = (false, none, none, none) :=
  (claim_C2_amended "Zz" emptyPlayed []).2 (by decide)

/-- C3.  The notes required for a correct match are exactly the chord's
expected notes minus the open-string tuning notes: an open-string note is
(1) excluded from `non_open_expected`, (2) never reported in the `missing`
set, and (3) its presence or absence in the played table never changes the
`is_correct` verdict. -/
theorem claim_C3 (target : String) (played pc : List (Option ℕ)) :
    non_open_expected target = expected_notes target \ OPEN_STRING_NOTES.toFinset
    ∧ (∀ m, (detect_chord played pc target).2.2.1 = some m →
        ∀ n ∈ OPEN_STRING_NOTES, n ∉ m)
    ∧ (∀ n ∈ OPEN_STRING_NOTES,
        (detect_chord (prune n played) pc target).1
          = (detect_chord played pc target).1) := by
  refine ⟨non_open_expected_eq_sdiff target, ?_, ?_⟩
  · intro m hm n hn hnm
    unfold detect_chord at hm
    by_cases h : non_open_expected target = ∅
    · rw [if_pos h] at hm
      exact Option.noConfusion hm
    · rw [if_neg h] at hm
      have : m = non_open_expected target \ get_played_notes played :=
        (Option.some.inj hm).symm
      subst this
      exact open_not_mem_non_open hn (Finset.mem_sdiff.mp hnm).1
  · intro n hn
    by_cases h : non_open_expected target = ∅
    · unfold detect_chord
      rw [if_pos h, if_pos h]
    · unfold detect_chord
      rw [if_neg h, if_neg h]
      show decide _ = decide _
      apply decide_eq_decide.mpr
      constructor
      · intro hsub x hx
        exact (mem_get_played_prune.mp (hsub hx)).1
      · intro hsub x hx
        exact mem_get_played_prune.mpr
          ⟨hsub hx, fun hxn => open_not_mem_non_open (hxn ▸ hn) hx⟩

/-- Witness for C3 at "Em" (whose definition contains the open G-string
note 55) and a fully strummed table. -/
theorem claim_C3_witness :
    (55 ∈ OPEN_STRING_NOTES)
    ∧ (detect_chord [some 40, some 47, some 52, some 55, some 59, some 64]
        [] "Em").2.2.1 = some (∅ : Finset ℕ)
    ∧ 55 ∉ (∅ : Finset ℕ)
    ∧ (detect_chord
        (prune 55 [some 40, some 47, some 52, some 55, some 59, some 64])
        [] "Em").1
      = (detect_chord [some 40, some 47, some 52, some 55, some 59, some 64]
        [] "Em").1 := by
  refine ⟨by decide, by decide, ?_, ?_⟩
  · exact (claim_C3 "Em"
      [some 40, some 47, some 52, some 55, some 59, some 64] []).2.1
      ∅ (by decide) 55 (by decide)
  · exact (claim_C3 "Em"
      [some 40, some 47, some 52, some 55, some 59, some 64] []).2.2
      55 (by decide)

end GuitarTrainer

namespace GuitarTrainer

theorem map_two_of_59 {s : ℕ} (hmap : string_number_map 59 = some s) : s = 2 := by
  have h2 := string_number_map_59
  rw [hmap] at h2
  exact Option.some.inj h2

/-- `add_note` when the note-59 special case fires: the note is stored in
the string-3 slot (index 3), which is empty by assumption. -/
theorem add_note_59_divert (played : List (Option ℕ))
    (h4 : played.getD 4 none ≠ none) (h3 : played.getD 3 none = none) :
    add_note played 59 = (played.set 3 (some 59), some 3) := by
  rw [List.getD_eq_getElem?_getD] at h3
  rw [List.getD_eq_getElem?_getD] at h4
  simp [add_note, string_number_map_59, h3, h4]

/-- `add_note` when the note-59 special case does not fire: the note goes
to its mapped string's slot with keep-the-higher-note semantics. -/
theorem add_note_no_divert {played : List (Option ℕ)} {note s : ℕ}
    (hmap : string_number_map note = some s)
    (hno : ¬(note = 59 ∧ played.getD 4 none ≠ none ∧ played.getD 3 none = none)) :
    add_note played note =
      match played.getD (6 - s) none with
      | none => (played.set (6 - s) (some note), some (6 - s))
      | some current =>
        if current < note then (played.set (6 - s) (some note), some (6 - s))
        else (played, some (6 - s)) := by
  simp only [add_note, hmap, if_neg hno]

/-- C4.  Highest-fret-wins: starting from the fresh table, recording two
notes that map to the same string leaves that string's slot holding the
higher of the two; and whenever a note's mapped slot is currently empty,
`add_note` stores the note there. -/
theorem claim_C4 :
    (∀ n1 n2 s : ℕ, string_number_map n1 = some s →
      string_number_map n2 = some s →
      ((n1 < n2 →
        (add_note (add_note emptyPlayed n1).1 n2).1.getD (6 - s) none = some n2)
      ∧ (n2 < n1 →
        (add_note (add_note emptyPlayed n1).1 n2).1.getD (6 - s) none = some n1)))
    ∧ (∀ (played : List (Option ℕ)) (note s : ℕ), played.length = 6 →
        string_number_map note = some s →
        played.getD (6 - s) none = none →
        (add_note played note).1.getD (6 - s) none = some note) := by
  constructor
  · intro n1 n2 s h1 h2
    have hs := string_number_map_bounds h1
    have hno1 : ¬(n1 = 59 ∧ emptyPlayed.getD 4 none ≠ none ∧
        emptyPlayed.getD 3 none = none) := by
      rintro ⟨-, hc, -⟩
      exact hc (emptyPlayed_getD 4)
    have hA : (add_note emptyPlayed n1).1 = emptyPlayed.set (6 - s) (some n1) := by
      rw [add_note_no_divert h1 hno1, emptyPlayed_getD]
    by_cases h59 : n2 = 59
    · subst h59
      have hs2 : s = 2 := map_two_of_59 h2
      subst hs2
      have hge : 59 ≤ n1 := string_number_map_two_ge h1
      have hA4 : (add_note emptyPlayed n1).1 = [none, none, none, none, some n1, none] := by
        rw [hA]
        rfl
      constructor
      · intro hlt
        omega
      · intro hlt
        rw [hA4, add_note_59_divert _ (by simp) (by simp)]
        rfl
    · have hslot : (add_note emptyPlayed n1).1.getD (6 - s) none = some n1 := by
        rw [hA]
        exact getD_set_self (by simp [emptyPlayed]; omega) _
      have hno2 : ¬(n2 = 59 ∧ (add_note emptyPlayed n1).1.getD 4 none ≠ none ∧
          (add_note emptyPlayed n1).1.getD 3 none = none) := by
        rintro ⟨hc, -, -⟩
        exact h59 hc
      constructor
      · intro hlt
        rw [add_note_no_divert h2 hno2, hslot]
        simp only [if_pos hlt]
        exact getD_set_self (by rw [hA]; simp [emptyPlayed]; omega) _
      · intro hlt
        rw [add_note_no_divert h2 hno2, hslot]
        simp only [if_neg (by omega : ¬ n1 < n2)]
        exact hslot
  · intro played note s hlen hmap hempty
    by_cases h59 : note = 59 ∧ played.getD 4 none ≠ none ∧ played.getD 3 none = none
    · exfalso
      obtain ⟨hn, hc4, -⟩ := h59
      subst hn
      have hs2 : s = 2 := map_two_of_59 hmap
      subst hs2
      exact hc4 hempty
    · have hs := string_number_map_bounds hmap
      rw [add_note_no_divert hmap h59, hempty]
      exact getD_set_self (by omega) _

/-- Witness for C4: notes 45 then 47 on string 5 (slot index 1), and
storing note 40 into the fresh table's empty string-6 slot (index 0). -/
theorem claim_C4_witness :
    (add_note (add_note emptyPlayed 45).1 47).1.getD 1 none = some 47
    ∧ (add_note emptyPlayed 40).1.getD 0 none = some 40 :=
  ⟨(claim_C4.1 45 47 5 (by decide) (by decide)).1 (by decide),
   claim_C4.2 emptyPlayed 40 6 (by decide) (by decide) (by decide)⟩

/-- C5 counterexample.  In a table where the string-5 slot (index 1) holds
a note and the string-4 slot (index 2) is empty — the claim's trigger
condition — note 59 is *not* moved to the string-3 slot (index 3); it is
recorded in the string-2 slot (index 4) as usual. -/
theorem claim_C5_counterexample :
    (add_note [none, some 46, none, none, none, none] 59).1
      = [none, some 46, none, none, some 59, none]
    ∧ (add_note [none, some 46, none, none, none, none] 59).1.getD 3 none
      ≠ some 59 := by decide

/-- C5 amended.  Note 59 is reassigned from string 2 to string 3 exactly
when the *string-2* slot (`played_notes[4]`) currently holds a note and
the *string-3* slot (`played_notes[3]`) is empty; under any other
condition it is handled on string 2 (index 4), stored there only if that
slot is empty or holds a lower note. -/
theorem claim_C5_amended (played : List (Option ℕ)) :
    (played.getD 4 none ≠ none → played.getD 3 none = none →
      add_note played 59 = (played.set 3 (some 59), some 3))
    ∧ (played.getD 4 none = none →
      add_note played 59 = (played.set 4 (some 59), some 4))
    ∧ (∀ c, played.getD 4 none = some c → played.getD 3 none ≠ none →
      add_note played 59 =
        if c < 59 then (played.set 4 (some 59), some 4) else (played, some 4)) := by
  refine ⟨add_note_59_divert played, ?_, ?_⟩
  · intro h4
    have hno : ¬((59:ℕ) = 59 ∧ played.getD 4 none ≠ none ∧
        played.getD 3 none = none) := by
      rintro ⟨-, hc, -⟩
      exact hc h4
    rw [add_note_no_divert string_number_map_59 hno]
    rw [show (6 - 2 : ℕ) = 4 from rfl, h4]
  · intro c h4 h3
    have hno : ¬((59:ℕ) = 59 ∧ played.getD 4 none ≠ none ∧
        played.getD 3 none = none) := by
      rintro ⟨-, -, hc⟩
      exact h3 hc
    rw [add_note_no_divert string_number_map_59 hno]
    rw [show (6 - 2 : ℕ) = 4 from rfl, h4]

/-- Witness for the amended C5: string-2 slot holds 60 and string-3 slot
is empty, so 59 is diverted to the string-3 slot. -/
theorem claim_C5_witness :
    add_note [none, none, none, none, some 60, none] 59
      = ([none, none, none, none, some 60, none].set 3 (some 59), some 3) :=
  (claim_C5_amended [none, none, none, none, some 60, none]).1
    (by decide) (by decide)

/-- C10.  `detect_chord` is constant in its first Python argument
(`played_chords`): the result is computed solely from the detector's own
table and the target chord name. -/
theorem claim_C10 (played a b : List (Option ℕ)) (target : String) :
    detect_chord played a target = detect_chord played b target := rfl

end GuitarTrainer

namespace GuitarTrainer

/-! ## Fisher–Yates shuffle (practice_modes.py lines 455–460 and
guitar_trainer_chords.py lines 1643–1650) -/

/-- The Python parallel assignment
`shuffled[i], shuffled[j] = shuffled[j], shuffled[i]` (indices in range). -/
def listSwap {α : Type} (l : List α) (i j : ℕ) : List α :=
  match l[i]?, l[j]? with
  | some a, some b => (l.set i b).set j a
  | _, _ => l

theorem cons_set_perm {α : Type} :
    ∀ {t : List α} {m : ℕ} {x : α}, t[m]? = some x →
      ∀ y : α, List.Perm (x :: t.set m y) (y :: t) := by
  intro t
  induction t with
  | nil => intro m x hx; simp at hx
  | cons c t ih =>
    intro m x hx y
    cases m with
    | zero =>
      simp only [List.getElem?_cons_zero, Option.some.injEq] at hx
      cases hx
      show List.Perm (c :: y :: t) (y :: c :: t)
      exact List.Perm.swap y c t
    | succ m =>
      simp only [List.getElem?_cons_succ] at hx
      show List.Perm (x :: c :: t.set m y) (y :: c :: t)
      refine List.Perm.trans (List.Perm.swap c x _) ?_
      refine List.Perm.trans (List.Perm.cons c (ih hx y)) ?_
      exact List.Perm.swap y c t

theorem set_set_perm {α : Type} :
    ∀ {l : List α} {i j : ℕ} {a b : α}, l[i]? = some a → l[j]? = some b →
      List.Perm ((l.set i b).set j a) l := by
  intro l
  induction l with
  | nil => intro i j a b hi; simp at hi
  | cons c t ih =>
    intro i j a b hi hj
    cases i with
    | zero =>
      simp only [List.getElem?_cons_zero, Option.some.injEq] at hi
      subst hi
      cases j with
      | zero =>
        simp only [List.getElem?_cons_zero, Option.some.injEq] at hj
        cases hj
        exact List.Perm.refl _
      | succ m =>
        simp only [List.getElem?_cons_succ] at hj
        show List.Perm (b :: t.set m c) (c :: t)
        exact cons_set_perm hj c
    | succ k =>
      simp only [List.getElem?_cons_succ] at hi
      cases j with
      | zero =>
        simp only [List.getElem?_cons_zero, Option.some.injEq] at hj
        cases hj
        show List.Perm (a :: t.set k c) (c :: t)
        exact cons_set_perm hi c
      | succ m =>
        simp only [List.getElem?_cons_succ] at hj
        show List.Perm (c :: (t.set k b).set m a) (c :: t)
        exact List.Perm.cons c (ih hi hj)

theorem listSwap_perm {α : Type} (l : List α) (i j : ℕ) :
    List.Perm (listSwap l i j) l := by
  unfold listSwap
  rcases hi : l[i]? with _ | a
  · exact List.Perm.refl _
  · rcases hj : l[j]? with _ | b
    · exact List.Perm.refl _
    · exact set_set_perm hi hj

/-- The Fisher–Yates loop body, recursing on the Python loop variable `i`
(which runs from `n - 1` down to `1`): at each step swap index `i` with
`j = rng step % (i + 1)`.  `rng` models the successive values returned by
`urandom.getrandbits(16)`. -/
def fisherYatesAux {α : Type} (rng : ℕ → ℕ) : ℕ → ℕ → List α → List α
  | 0, _, l => l
  | i + 1, step, l =>
    fisherYatesAux rng i (step + 1) (listSwap l (i + 1) (rng step % (i + 2)))

/-- The Fisher–Yates shuffle as written in both implementations:
`for i in range(n - 1, 0, -1): j = urandom.getrandbits(16) % (i + 1);
shuffled[i], shuffled[j] = shuffled[j], shuffled[i]`. -/
def fisherYates {α : Type} (l : List α) (rng : ℕ → ℕ) : List α :=
  fisherYatesAux rng (l.length - 1) 0 l

theorem fisherYatesAux_perm {α : Type} (rng : ℕ → ℕ) :
    ∀ (i step : ℕ) (l : List α), List.Perm (fisherYatesAux rng i step l) l := by
  intro i
  induction i with
  | zero => intro step l; exact List.Perm.refl _
  | succ i ih =>
    intro step l
    exact List.Perm.trans (ih (step + 1) _) (listSwap_perm l _ _)

theorem fisherYates_perm {α : Type} (l : List α) (rng : ℕ → ℕ) :
    List.Perm (fisherYates l rng) l :=
  fisherYatesAux_perm rng _ 0 l

theorem fisherYates_length {α : Type} (l : List α) (rng : ℕ → ℕ) :
    (fisherYates l rng).length = l.length :=
  (fisherYates_perm l rng).length_eq

end GuitarTrainer

namespace GuitarTrainer

/-! ## guitar_trainer_chords.py — `ChordTrainer.handle_midi` -/

/-- `CHORD_MIDI_NOTES` as defined inside `guitar_trainer_chords.py`
(lines 44–73) — the table used by `handle_midi`'s inline matcher.  It
differs from the `config.py` table in several voicings. -/
def CHORDS_FILE_MIDI_NOTES : List (String × List ℕ) := [
  ("A",   [64, 61, 57, 52, 45, 40]),
  ("Am",  [64, 60, 57, 52, 45, 40]),
  ("A7",  [64, 59, 57, 52, 45, 40]),
  ("B",   [64, 59, 56, 52, 47, 40]),
  ("Bm",  [64, 59, 55, 52, 47, 40]),
  ("B7",  [64, 59, 56, 52, 47, 40]),
  ("C",   [64, 60, 55, 52, 48, 40]),
  ("Cm",  [64, 60, 55, 52, 48, 40]),
  ("C7",  [64, 60, 55, 53, 48, 40]),
  ("D",   [66, 62, 57, 50, 45, 40]),
  ("Dm",  [65, 62, 57, 50, 45, 40]),
  ("D7",  [64, 62, 57, 50, 45, 40]),
  ("E",   [64, 59, 56, 52, 47, 40]),
  ("Em",  [64, 59, 55, 52, 47, 40]),
  ("E7",  [64, 59, 55, 52, 47, 40]),
  ("F",   [64, 59, 57, 53, 48, 41]),
  ("Fm",  [64, 60, 56, 53, 48, 41]),
  ("F7",  [64, 60, 57, 53, 48, 41]),
  ("G",   [67, 59, 55, 50, 47, 43]),
  ("Gm",  [67, 59, 55, 50, 47, 43]),
  ("G7",  [65, 59, 55, 50, 47, 43]),
  ("D6/9", [64, 59, 55, 50, 47, 42])]

/-- The insertions building the module-level `STRING_NUMBER` dict of
`guitar_trainer_chords.py` (lines 135–142): strings 6 down to 1, frets
0–4 only; later insertions (lower string numbers) overwrite earlier
ones. -/
def chordsMapWrites : List (ℕ × ℕ) :=
  ([6, 5, 4, 3, 2, 1] : List ℕ).flatMap fun string_n =>
    (List.range 5).map fun fret =>
      (OPEN_STRING_NOTES.getD (string_n - 1) 0 + fret, string_n)

/-- `STRING_NUMBER.get(note)` of `guitar_trainer_chords.py`: last write
wins. -/
def STRING_NUMBER (note : ℕ) : Option ℕ :=
  (chordsMapWrites.reverse.find? (fun p => p.1 == note)).map (fun p => p.2)

/-- The values the Python local `notes_hit` actually takes in
`handle_midi`: the booleans `False`/`True`, and the list `[False] * 6`
assigned after processing (line 1679) — which, being a non-empty list, is
*truthy*. -/
inductive NotesHit : Type
  | pyBool (b : Bool)
  | pyListFalse6
deriving DecidableEq

/-- Python truthiness of a `notes_hit` value. -/
def NotesHit.truthy : NotesHit → Bool
  | pyBool b => b
  | pyListFalse6 => true

/-- The mutable state consulted by `handle_midi`'s note-on processing:
the strum-machine locals (`started`, `up`, `notes_hit`, `last_note`), the
trainer fields `played_notes`, `chord_sequence`, `current_chord_index`,
`randomize_mode`, and the stream of `urandom.getrandbits(16)` values. -/
structure ChordsState where
  started : Bool
  up : Bool
  notesHit : NotesHit
  played : List (Option ℕ)
  lastNote : Option ℕ
  chordSeq : List String
  idx : ℕ
  randomizeMode : String
  rng : ℕ → ℕ

/-- The expected-note set `handle_midi` compares against (line 1615):
the raw table entry, with no open-string filtering. -/
def chordsExpected (target : String) : Finset ℕ :=
  ((CHORDS_FILE_MIDI_NOTES.lookup target).getD []).toFinset

/-- Lines 1607–1685 of `handle_midi`: the processing performed once
`notes_hit` is truthy.  Looks up the current target chord (an
out-of-range index raises IndexError, caught at line 1690 — modeled as
`none`), applies the superset test against `CHORDS_FILE_MIDI_NOTES`, and
on a correct match advances the index, reshuffling (mode `'R'`) or simply
wrapping (any other mode) when the sequence is exhausted; on a wrong
match clears `played_notes`.  In all cases `notes_hit` is reassigned the
truthy list `[False] * 6` and `last_note` is cleared. -/
def chordsProcess (st : ChordsState) : Option ChordsState :=
  match st.chordSeq[st.idx]? with
  | none => none
  | some target =>
    let playedCopy := get_played_notes st.played
    if decide (chordsExpected target ⊆ playedCopy) then
      let idx' := st.idx + 1
      if st.chordSeq.length ≤ idx' then
        if st.randomizeMode == "R" then
          some { st with
            chordSeq := fisherYates st.chordSeq st.rng,
            rng := fun k => st.rng (k + (st.chordSeq.length - 1)),
            idx := 0,
            notesHit := .pyListFalse6, lastNote := none }
        else
          some { st with idx := 0, notesHit := .pyListFalse6, lastNote := none }
      else
        some { st with idx := idx', notesHit := .pyListFalse6, lastNote := none }
    else
      some { st with played := List.replicate 6 none, notesHit := .pyListFalse6, lastNote := none }

/-- Outcome of one note-on event in `handle_midi`. -/
inductive ChordsStep : Type
  | menuExit
  | fault
  | cont (st : ChordsState) (processed : Bool)

/-- One `note_on` event of `handle_midi` (lines 1496–1685), for events
arriving within the 500 ms window (so the time-difference reset at line
1516 does not fire).  In order: the isolated-selection-note menu exit,
the string lookup (an unmapped note falls back to array index 0, line
1529), the duplicate-note skip, the keep-higher store, strum start at an
endpoint index (0 or 5), the completion test at the opposite endpoint,
and — when `notes_hit` is truthy — the chord processing. -/
def chordsNoteOn (st : ChordsState) (note : ℕ) : ChordsStep :=
  if note ∈ SELECTION_NOTES ∧ (st.played.filterMap id).length ≤ 1 then
    .menuExit
  else
    let string_num : ℕ := match STRING_NUMBER note with
      | some s => 6 - s
      | none => 0
    if some note = st.lastNote then .cont st false
    else
      let played' := match st.played.getD string_num none with
        | none => st.played.set string_num (some note)
        | some current =>
          if current < note then st.played.set string_num (some note)
          else st.played
      let st1 := { st with played := played', lastNote := some note }
      let st2 :=
        if ¬st1.started ∧ (string_num = 5 ∨ string_num = 0) then
          { st1 with started := true, up := string_num ≠ 5 }
        else st1
      if ¬st2.started then .cont st2 false
      else
        let st3 :=
          if st2.up ∧ string_num = 5 then
            { st2 with started := false, up := false, notesHit := .pyBool true }
          else if ¬st2.up ∧ string_num = 0 then
            { st2 with started := false, up := true, notesHit := .pyBool true }
          else st2
        if ¬st3.notesHit.truthy then .cont st3 false
        else
          match chordsProcess st3 with
          | none => .fault
          | some st4 => .cont st4 true

/-- Run `handle_midi` over a list of note-on events, recording for each
event whether it triggered chord processing.  `none` when the handler
exits (menu trigger or exception). -/
def chordsRun (st : ChordsState) : List ℕ → Option (ChordsState × List Bool)
  | [] => some (st, [])
  | n :: rest =>
    match chordsNoteOn st n with
    | .menuExit => none
    | .fault => none
    | .cont st' p =>
      match chordsRun st' rest with
      | none => none
      | some (stf, ps) => some (stf, p :: ps)

/-- The `timeout_handler` of `handle_midi` (lines 1463–1476): on firing
it resets `started`, `notes_hit` and `played_notes` and redisplays the
target; it produces **no** chord-match result (empty result list). -/
def chordsTimeoutFire (st : ChordsState) : ChordsState × List DetectResult :=
  ({ st with started := false, notesHit := .pyBool false, played := List.replicate 6 none }, [])

end GuitarTrainer

namespace GuitarTrainer

/-! ## practice_modes.py — `RegularPracticeMode` and
guitar_trainer_app.py — `GuitarTrainerApp` -/

/-- Python exceptions that the modeled code can raise. -/
inductive PMFault : Type
  | typeError
  | indexError
deriving DecidableEq

/-- State of a `RegularPracticeMode` session: the object fields
(`chord_sequence`, `current_chord_index`, `mode`, `target_chord`,
`collected_strings`, `pressed_frets`), the shared detector's
`played_notes` table, the `run`-local `started` flag, and the
`urandom.getrandbits(16)` stream. -/
structure PMState where
  chordSeq : List String
  idx : ℕ
  mode : String
  targetChord : String
  detector : List (Option ℕ)
  collected : List (Option ℕ)
  pressedFrets : List ℕ
  runStarted : Bool
  rng : ℕ → ℕ

/-- The common tail of `_process_chord_detection` (lines 471–491): reset
the detector, then re-read `chord_sequence[current_chord_index]` as the
next target — an out-of-range index raises IndexError. -/
def pmFinish (st : PMState) (r : DetectResult) :
    Except PMFault (PMState × Option String × DetectResult) :=
  let st' := { st with detector := List.replicate 6 none }
  match st'.chordSeq[st'.idx]? with
  | none => .error .indexError
  | some t => .ok ({ st' with targetChord := t }, none, r)

/-- `RegularPracticeMode._process_chord_detection` (lines 425–491).
Returns the updated state, the Python return value (`'menu'` on sequence
completion in non-Randomize mode, otherwise `None`), and the single
`detect_chord` result it produced.  Display calls are side effects and
are not modeled. -/
def procChordDetection (st : PMState) :
    Except PMFault (PMState × Option String × DetectResult) :=
  let r := detect_chord st.detector st.collected st.targetChord
  if r.1 then
    let idx' := st.idx + 1
    if st.chordSeq.length ≤ idx' then
      if st.mode == "R" then
        pmFinish { st with
          chordSeq := fisherYates st.chordSeq st.rng,
          rng := fun k => st.rng (k + (st.chordSeq.length - 1)),
          idx := 0 } r
      else
        .ok ({ st with idx := idx' }, some "menu", r)
    else
      pmFinish { st with idx := idx' } r
  else
    pmFinish st r

/-- The `timeout_handler` of `RegularPracticeMode.run` (lines 139–155):
on firing it runs `_process_chord_detection` (producing exactly one
match result) and then resets the detector and the collection state.  An
exception inside `_process_chord_detection` kills the task before the
resets. -/
def pmTimeoutFire (st : PMState) :
    Except PMFault (PMState × List DetectResult) :=
  match procChordDetection st with
  | .error f => .error f
  | .ok (st', _sig, r) =>
    .ok ({ st' with
            detector := List.replicate 6 none,
            collected := List.replicate 6 none,
            pressedFrets := List.replicate 6 0,
            runStarted := false }, [r])

/-- The strum-completion call site in `RegularPracticeMode.run`
(lines 268–283): `await self._process_chord_detection()` — the return
value (`'menu'` or `None`) is **discarded** — followed by state resets;
the loop then continues.  An exception propagates to the handler at
lines 316–321, which returns `'menu'`. -/
def pmStrumCompleteSite (st : PMState) : Except PMFault PMState :=
  match procChordDetection { st with runStarted := false } with
  | .error f => .error f
  | .ok (st', _discardedSignal, _r) =>
    .ok { st' with collected := List.replicate 6 none }

/-- The call `self.detector.add_note(note, string_num, fret_num)` at
practice_modes.py line 231.  `ChordDetector.add_note(self, note)` accepts
a single note argument, so this three-argument call raises TypeError
before touching the detector table. -/
def detectorAddNoteCall3 (detector : List (Option ℕ))
    (note string_num fret_num : ℕ) :
    Except PMFault (List (Option ℕ) × Option ℕ) :=
  .error .typeError

/-- Outcome of one queued MIDI event in `RegularPracticeMode.run`. -/
inductive PMStepOut : Type
  | exitMenu (viaFault : Bool)
  | cont (st : PMState) (processed : Bool)

/-- One iteration of `RegularPracticeMode.run`'s event loop
(lines 188–283) on a queued message
`(command, string_num, fret_num, note, fret_pressed)`.  A `0x90` event
reaches the `add_note` call at line 231, whose TypeError is caught by the
surrounding `try` (line 316) making `run` return `'menu'`.  The
continuation after that call (menu trigger on note 86, strum start at
endpoint indices 5/0, collection of all six strings, then
`_process_chord_detection`) is modeled faithfully but is unreachable. -/
def pmEventStep (st : PMState) (ev : ℕ × ℕ × ℕ × ℕ × ℕ) : PMStepOut :=
  let (command, string_num, fret_num, note, fret_pressed) := ev
  let st := if command = 0x90 ∨ command = 0xB0 then
      { st with pressedFrets :=
        st.pressedFrets.set string_num (if 0 < fret_pressed then fret_num else 0) }
    else st
  if command = 0x80 then
    .cont { st with pressedFrets := st.pressedFrets.set string_num 0 } false
  else if command = 0x90 then
    match detectorAddNoteCall3 st.detector note string_num fret_num with
    | .error _ => .exitMenu true
    | .ok (det', _) =>
      let st := { st with detector := det' }
      if note = 86 then .exitMenu false
      else
        let st := if ¬st.runStarted ∧ (string_num = 5 ∨ string_num = 0) then
            { st with runStarted := true } else st
        let st := { st with collected := st.collected.set string_num (some note) }
        if st.collected.any (fun x => x.isNone) then .cont st false
        else
          match pmStrumCompleteSite st with
          | .error _ => .exitMenu true
          | .ok st' => .cont st' true
  else .cont st false

/-- Run the practice-mode event loop over a list of queued messages.
Returns the per-event processed flags gathered before any exit, and
whether the loop exited to the menu. -/
def pmRunFlags (st : PMState) : List (ℕ × ℕ × ℕ × ℕ × ℕ) → List Bool × Bool
  | [] => ([], false)
  | ev :: rest =>
    match pmEventStep st ev with
    | .exitMenu _ => ([], true)
    | .cont st' p =>
      let (ps, ex) := pmRunFlags st' rest
      (p :: ps, ex)

/-- Result of entering `RegularPracticeMode.run` (lines 98–118): either
the early `'menu'` return when the BLE connection is down, or the first
target-chord assignment `self.chord_sequence[self.current_chord_index]`
(index 0 at session start) succeeding and the event loop being entered. -/
inductive PMStart : Type
  | menuNotConnected
  | entersLoop (target : String)
deriving DecidableEq

/-- The prefix of `RegularPracticeMode.run` before its event loop.  With
an empty `chord_sequence` the subscript at line 118 raises IndexError —
outside the `try` block, so it propagates to the caller. -/
def practiceRunStart (connected : Bool) (chordSeq : List String) :
    Except PMFault PMStart :=
  if ¬connected then .ok .menuNotConnected
  else
    match chordSeq[0]? with
    | none => .error .indexError
    | some t => .ok (.entersLoop t)

/-- What `GuitarTrainerApp.run` decides to do with a menu selection. -/
inductive AppAction : Type
  | showMenuAgain
  | startPractice (mode : Option String) (seq : List String)
deriving DecidableEq

/-- `GuitarTrainerApp.run` lines 66–84: split off a mode prefix
(`'R'`/`'S'`/`'M'`/`'H'`), then — `if len(self.chord_sequence) == 0:
continue` — show the menu again on an empty sequence, else start the
selected practice mode. -/
def appHandleSelection (selected : List String) : AppAction :=
  let modeSeq : Option String × List String :=
    match selected with
    | m :: rest =>
      if m = "R" ∨ m = "S" ∨ m = "M" ∨ m = "H" then (some m, rest)
      else (none, selected)
    | [] => (none, selected)
  if modeSeq.2.length = 0 then .showMenuAgain
  else .startPractice modeSeq.1 modeSeq.2

end GuitarTrainer


namespace GuitarTrainer

/-- The common tail `pmFinish` succeeds whenever the current index is in
range, resetting the detector and leaving the session fields unchanged. -/
theorem pmFinish_ok {st : PMState} (h : st.idx < st.chordSeq.length)
    (r : DetectResult) :
    ∃ st', pmFinish st r = Except.ok (st', none, r)
      ∧ st'.chordSeq = st.chordSeq ∧ st'.idx = st.idx
      ∧ st'.detector = List.replicate 6 none := by
  simp only [pmFinish]
  rw [List.getElem?_eq_getElem h]
  exact ⟨_, rfl, rfl, rfl, rfl⟩

/-- Existential form of `pmFinish_ok`, convenient for discharging goals
whose state argument is a structure update. -/
theorem pmFinish_exists {S : PMState} (r : DetectResult)
    (h : S.idx < S.chordSeq.length) {P : PMState → Prop}
    (hP : ∀ st', st'.chordSeq = S.chordSeq → st'.idx = S.idx →
      st'.detector = List.replicate 6 none → P st') :
    ∃ st', pmFinish S r = Except.ok (st', none, r) ∧ P st' := by
  obtain ⟨st', hok, h1, h2, h3⟩ := pmFinish_ok h r
  exact ⟨st', hok, hP st' h1 h2 h3⟩

/-- `_process_chord_detection` raises no exception when the current index
is in range. -/
theorem procChordDetection_ok (st : PMState)
    (hidx : st.idx < st.chordSeq.length) :
    ∃ st' sig r, procChordDetection st = Except.ok (st', sig, r) := by
  simp only [procChordDetection]
  cases hc : (detect_chord st.detector st.collected st.targetChord).1 with
  | false =>
    simp only [hc, Bool.false_eq_true, if_false]
    obtain ⟨st', hok, -, -, -⟩ := pmFinish_ok hidx
      (detect_chord st.detector st.collected st.targetChord)
    exact ⟨st', none, _, hok⟩
  | true =>
    simp only [hc, if_true]
    by_cases hov : st.chordSeq.length ≤ st.idx + 1
    · simp only [if_pos hov]
      cases hr : st.mode == "R" with
      | false =>
        simp only [hr, Bool.false_eq_true, if_false]
        exact ⟨_, some "menu", _, rfl⟩
      | true =>
        simp only [hr, if_true]
        have hlt : 0 < st.chordSeq.length := by omega
        obtain ⟨st', hok, -, -, -⟩ := @pmFinish_ok
          { st with
            chordSeq := fisherYates st.chordSeq st.rng,
            rng := fun k => st.rng (k + (st.chordSeq.length - 1)),
            idx := 0 }
          (by simpa [fisherYates_length] using hlt)
          (detect_chord st.detector st.collected st.targetChord)
        exact ⟨st', none, _, hok⟩
    · simp only [if_neg hov]
      obtain ⟨st', hok, -, -, -⟩ := @pmFinish_ok { st with idx := st.idx + 1 }
        (by show st.idx + 1 < st.chordSeq.length; omega)
        (detect_chord st.detector st.collected st.targetChord)
      exact ⟨st', none, _, hok⟩

/-- C7 counterexample.  With a strum in progress (string 6 struck,
`started` true), firing `handle_midi`'s `timeout_handler`
(guitar_trainer_chords.py lines 1463–1476) produces **zero** chord-match
results — the collected notes are silently discarded — contradicting the
claim that exactly one match result is produced on timeout. -/
theorem claim_C7_counterexample :
    (chordsTimeoutFire ⟨true, true, NotesHit.pyBool false,
      [some 40, none, none, none, none, none], some 40, ["Em"], 0, "S",
      fun _ => 0⟩).2.length ≠ 1 := by decide

/-- C7 amended.  On timeout, `RegularPracticeMode`'s handler produces
exactly one chord-match result and leaves both the detector table and the
collected-strings table cleared, provided the chord index is in range;
`ChordTrainer.handle_midi`'s timeout handler instead produces no match
result at all — it only clears the table and resets the strum flags. -/
theorem claim_C7_amended :
    (∀ st : PMState, st.idx < st.chordSeq.length →
      ∃ st' r, pmTimeoutFire st = Except.ok (st', [r])
        ∧ st'.detector = List.replicate 6 none
        ∧ st'.collected = List.replicate 6 none)
    ∧ (∀ st : ChordsState,
        (chordsTimeoutFire st).2 = ([] : List DetectResult)
        ∧ (chordsTimeoutFire st).1.played = List.replicate 6 none
        ∧ (chordsTimeoutFire st).1.started = false) := by
  constructor
  · intro st hidx
    obtain ⟨st', sig, r, hok⟩ := procChordDetection_ok st hidx
    refine ⟨{ st' with
      detector := List.replicate 6 none,
      collected := List.replicate 6 none,
      pressedFrets := List.replicate 6 0,
      runStarted := false }, r, ?_, rfl, rfl⟩
    unfold pmTimeoutFire
    rw [hok]
  · intro st
    exact ⟨rfl, rfl, rfl⟩

/-- Witness for the amended C7: a single-chord session with the index in
range. -/
theorem claim_C7_witness :
    ∃ st' r,
      pmTimeoutFire ⟨["A"], 0, "S", "A", List.replicate 6 none,
        List.replicate 6 none, List.replicate 6 0, false, fun _ => 0⟩
        = Except.ok (st', [r])
      ∧ st'.detector = List.replicate 6 none
      ∧ st'.collected = List.replicate 6 none :=
  claim_C7_amended.1 _ (by decide)

/-- C8 counterexample.  A Sequential-mode (`'S'`) session on
`["Em", "D6/9"]` at index 1: a full strum of D6/9 is the second
consecutive correct detection and overflows the sequence — yet
`handle_midi` does not return control to the menu; the run continues
(`some` result) with the index wrapped to 0. -/
theorem claim_C8_counterexample :
    (chordsRun ⟨false, false, NotesHit.pyBool false, List.replicate 6 none,
      none, ["Em", "D6/9"], 1, "S", fun _ => 0⟩
      [42, 47, 50, 55, 59, 64]).map (fun p => p.1.idx) = some 0 := by decide

/-- C8 amended.  When a correct detection advances the index past the end
of the sequence: in Randomize mode both implementations replace the
sequence by a Fisher–Yates permutation of the same multiset, reset the
index to 0 and play continues.  In Sequential mode, however, control does
not return to the menu on that detection: `_process_chord_detection`
produces the value `'menu'` but its caller discards it and the loop
continues, while `handle_midi` merely wraps the index to 0 and
continues. -/
theorem claim_C8_amended :
    (∀ st : PMState, st.mode = "R" →
      (detect_chord st.detector st.collected st.targetChord).1 = true →
      st.chordSeq.length ≤ st.idx + 1 → 0 < st.chordSeq.length →
      ∃ st', procChordDetection st
          = Except.ok (st', none,
              detect_chord st.detector st.collected st.targetChord)
        ∧ List.Perm st'.chordSeq st.chordSeq ∧ st'.idx = 0)
    ∧ (∀ st : PMState, st.mode = "S" →
      (detect_chord st.detector st.collected st.targetChord).1 = true →
      st.chordSeq.length ≤ st.idx + 1 →
      procChordDetection st
          = Except.ok ({ st with idx := st.idx + 1 }, some "menu",
              detect_chord st.detector st.collected st.targetChord)
        ∧ (pmStrumCompleteSite st).toOption.isSome = true)
    ∧ (∀ st : ChordsState, st.randomizeMode = "R" →
      ∀ target, st.chordSeq[st.idx]? = some target →
      chordsExpected target ⊆ get_played_notes st.played →
      st.chordSeq.length ≤ st.idx + 1 →
      ∃ st', chordsProcess st = some st'
        ∧ List.Perm st'.chordSeq st.chordSeq ∧ st'.idx = 0)
    ∧ (∀ st : ChordsState, st.randomizeMode = "S" →
      ∀ target, st.chordSeq[st.idx]? = some target →
      chordsExpected target ⊆ get_played_notes st.played →
      st.chordSeq.length ≤ st.idx + 1 →
      chordsProcess st = some { st with
        idx := 0,
        notesHit := NotesHit.pyListFalse6,
        lastNote := none }) := by
  refine ⟨?_, ?_, ?_, ?_⟩
  · intro st hmode hcorr hov hpos
    simp only [procChordDetection, hcorr, if_true, if_pos hov, hmode,
      beq_self_eq_true, eq_self_iff_true]
    refine pmFinish_exists _ ?_ ?_
    · show (0:ℕ) < (fisherYates st.chordSeq st.rng).length
      rw [fisherYates_length]
      omega
    · intro st' h1 h2 h3
      constructor
      · rw [h1]
        exact fisherYates_perm st.chordSeq st.rng
      · rw [h2]
  · intro st hmode hcorr hov
    constructor
    · simp only [procChordDetection, hcorr, if_true, if_pos hov, hmode,
        show (("S" == "R") : Bool) = false from rfl, Bool.false_eq_true,
        if_false]
    · simp only [pmStrumCompleteSite, procChordDetection, hcorr, if_true,
        if_pos hov, hmode,
        show (("S" == "R") : Bool) = false from rfl, Bool.false_eq_true,
        if_false]
      rfl
  · intro st hmode target htarget hsub hov
    simp only [chordsProcess, htarget, decide_eq_true hsub, if_true,
      if_pos hov, hmode, beq_self_eq_true, eq_self_iff_true]
    exact ⟨_, rfl, fisherYates_perm st.chordSeq st.rng, rfl⟩
  · intro st hmode target htarget hsub hov
    simp only [chordsProcess, htarget, decide_eq_true hsub, if_true,
      if_pos hov, hmode,
      show (("S" == "R") : Bool) = false from rfl, Bool.false_eq_true,
      if_false]

/-- Witness for the amended C8: Sequential mode on `["A", "B"]` at index
1 with a correct B chord in the detector — the `'menu'` value is produced
and the call site continues rather than exiting. -/
theorem claim_C8_witness :
    procChordDetection ⟨["A", "B"], 1, "S", "B",
        [none, none, some 54, none, some 63, some 66],
        List.replicate 6 none, List.replicate 6 0, false, fun _ => 0⟩
      = Except.ok ((⟨["A", "B"], 2, "S", "B",
          [none, none, some 54, none, some 63, some 66],
          List.replicate 6 none, List.replicate 6 0, false,
          fun _ => 0⟩ : PMState), some "menu",
          detect_chord [none, none, some 54, none, some 63, some 66]
            (List.replicate 6 none) "B")
    ∧ (pmStrumCompleteSite ⟨["A", "B"], 1, "S", "B",
        [none, none, some 54, none, some 63, some 66],
        List.replicate 6 none, List.replicate 6 0, false,
        fun _ => 0⟩).toOption.isSome = true :=
  claim_C8_amended.2.1 _ rfl (by decide) (by decide)

/-- C9 counterexample.  Invoked while connected with an empty chord
sequence, `RegularPracticeMode.run` raises IndexError at its first
subscript (practice_modes.py line 118) — a runtime fault, not a typed
configuration error; and the app-level guard (guitar_trainer_app.py lines
82–84) silently shows the menu again rather than signalling a typed error
to any caller. -/
theorem claim_C9_counterexample :
    practiceRunStart true [] = Except.error PMFault.indexError
    ∧ appHandleSelection ["R"] = AppAction.showMenuAgain := by
  constructor
  · rfl
  · rfl

/-- C9 amended.  `GuitarTrainerApp.run` checks for an empty chord
sequence eagerly and skips straight back to the menu without starting a
session (no typed error value exists); a practice mode is only started on
a non-empty sequence.  `RegularPracticeMode.run` itself performs no
emptiness check: with a connection up and an empty sequence it fails with
IndexError before entering its event loop (when disconnected it returns
`'menu'`). -/
theorem claim_C9_amended :
    (∀ selected : List String,
      appHandleSelection selected = AppAction.showMenuAgain ∨
      ∃ m seq, appHandleSelection selected = AppAction.startPractice m seq
        ∧ seq ≠ [])
    ∧ (∀ seq : List String, seq ≠ [] →
        ∃ t, practiceRunStart true seq = Except.ok (PMStart.entersLoop t))
    ∧ practiceRunStart true [] = Except.error PMFault.indexError
    ∧ (∀ seq : List String,
        practiceRunStart false seq = Except.ok PMStart.menuNotConnected) := by
  refine ⟨?_, ?_, by rfl, ?_⟩
  · intro selected
    cases selected with
    | nil => exact Or.inl rfl
    | cons m rest =>
      by_cases hm : m = "R" ∨ m = "S" ∨ m = "M" ∨ m = "H"
      · cases rest with
        | nil =>
          left
          simp [appHandleSelection, hm]
        | cons b bs =>
          right
          exact ⟨some m, b :: bs, by simp [appHandleSelection, hm], by simp⟩
      · right
        exact ⟨none, m :: rest, by simp [appHandleSelection, hm], by simp⟩
  · intro seq hne
    cases seq with
    | nil => exact absurd rfl hne
    | cons t rest => exact ⟨t, by simp [practiceRunStart]⟩
  · intro seq
    rfl

/-- Witness for the amended C9: a one-chord sequence enters the loop. -/
theorem claim_C9_witness :
    ∃ t, practiceRunStart true ["Em"] = Except.ok (PMStart.entersLoop t) :=
  claim_C9_amended.2.1 ["Em"] (by decide)

end GuitarTrainer

namespace GuitarTrainer

set_option maxRecDepth 4096 in
theorem mem_chordsMapWrites_bounds :
    ∀ p ∈ chordsMapWrites, 1 ≤ p.2 ∧ p.2 ≤ 6 := by decide

theorem STRING_NUMBER_mem {n s : ℕ} (h : STRING_NUMBER n = some s) :
    ∃ p ∈ chordsMapWrites, p.1 = n ∧ p.2 = s := by
  unfold STRING_NUMBER at h
  obtain ⟨p, hp, hps⟩ := Option.map_eq_some'.mp h
  refine ⟨p, List.mem_reverse.mp (List.mem_of_find?_eq_some hp), ?_, hps⟩
  have := List.find?_some hp
  simpa using this

theorem STRING_NUMBER_bounds {n s : ℕ}
    (h : STRING_NUMBER n = some s) : 1 ≤ s ∧ s ≤ 6 := by
  obtain ⟨p, hpmem, -, hp2⟩ := STRING_NUMBER_mem h
  exact hp2 ▸ mem_chordsMapWrites_bounds p hpmem

/-- The array index `6 - s` can only complete a strum in direction `u0`
when it equals this value (5 for `up`, 0 for `down`). -/
def oppIdx (u0 : Bool) : ℕ := cond u0 5 0

/-- Invariant maintained by `handle_midi` while a strum is accumulating:
`started` is set, `notes_hit` is (boolean) false, the direction and the
session fields are unchanged, and the last stored note lies on a
non-opposite string. -/
def StrumInv (u0 : Bool) (seq0 : List String) (i0 : ℕ) (st : ChordsState) : Prop :=
  st.started = true ∧ st.up = u0 ∧ st.notesHit = NotesHit.pyBool false ∧
  st.chordSeq = seq0 ∧ st.idx = i0 ∧
  ∃ p sp, st.lastNote = some p ∧ STRING_NUMBER p = some sp ∧ 6 - sp ≠ oppIdx u0

/-- During accumulation, an event on a non-opposite string (mapped,
non-selection) neither exits nor processes, and preserves the
invariant. -/
theorem chords_step_mid {u0 : Bool} {seq0 : List String} {i0 : ℕ}
    {st : ChordsState} {m sm : ℕ}
    (hinv : StrumInv u0 seq0 i0 st)
    (hsel : m ∉ SELECTION_NOTES)
    (hm : STRING_NUMBER m = some sm)
    (hopp : 6 - sm ≠ oppIdx u0) :
    ∃ st', chordsNoteOn st m = ChordsStep.cont st' false
      ∧ StrumInv u0 seq0 i0 st' := by
  obtain ⟨hst, hup, hnh, hseq, hidx, p, sp, hlast, hpsp, hpopp⟩ := hinv
  by_cases hdup : some m = st.lastNote
  · refine ⟨st, ?_, hst, hup, hnh, hseq, hidx, p, sp, hlast, hpsp, hpopp⟩
    simp only [chordsNoteOn, if_neg (fun h : m ∈ SELECTION_NOTES ∧ (st.played.filterMap id).length ≤ 1 => hsel h.1), hm, if_pos hdup]
  · simp only [chordsNoteOn, if_neg (fun h : m ∈ SELECTION_NOTES ∧ (st.played.filterMap id).length ≤ 1 => hsel h.1), hm, if_neg hdup]
    cases u0 with
    | true =>
      simp only [oppIdx, cond] at hopp
      simp only [hst, hup, hnh, not_true, false_and, if_false,
        eq_self_iff_true, true_and, hopp, and_false, not_false_iff, if_true,
        NotesHit.truthy, Bool.false_eq_true]
      refine ⟨_, rfl, rfl, rfl, rfl, hseq, hidx, m, sm, rfl, hm, ?_⟩
      simpa [oppIdx] using hopp
    | false =>
      simp only [oppIdx, cond] at hopp
      simp only [hst, hup, hnh, not_true, false_and, if_false,
        eq_self_iff_true, true_and, hopp, and_false, not_false_iff, if_true,
        NotesHit.truthy, Bool.false_eq_true]
      refine ⟨_, rfl, rfl, rfl, rfl, hseq, hidx, m, sm, rfl, hm, ?_⟩
      simpa [oppIdx] using hopp

/-- `chordsProcess` cannot fault while the index is in range. -/
theorem chordsProcess_ok {st : ChordsState}
    (h : st.idx < st.chordSeq.length) :
    ∃ st', chordsProcess st = some st' := by
  simp only [chordsProcess, List.getElem?_eq_getElem h]
  by_cases hc : chordsExpected st.chordSeq[st.idx] ⊆ get_played_notes st.played
  · simp only [decide_eq_true hc, if_true]
    by_cases hov : st.chordSeq.length ≤ st.idx + 1
    · simp only [if_pos hov]
      cases hr : st.randomizeMode == "R" with
      | true => simp only [hr, if_true]; exact ⟨_, rfl⟩
      | false => simp only [hr, Bool.false_eq_true, if_false]; exact ⟨_, rfl⟩
    · simp only [if_neg hov]
      exact ⟨_, rfl⟩
  · simp only [decide_eq_false hc, Bool.false_eq_true, if_false]
    exact ⟨_, rfl⟩

theorem chordsProcess_match {X : ChordsState}
    (h : X.idx < X.chordSeq.length) :
    ∃ st', (match chordsProcess X with
            | none => ChordsStep.fault
            | some st4 => ChordsStep.cont st4 true) = ChordsStep.cont st' true := by
  obtain ⟨st', hp⟩ := chordsProcess_ok h
  exact ⟨st', by rw [hp]⟩

/-- An event on the opposite endpoint string completes the strum and
triggers processing. -/
theorem chords_step_final {u0 : Bool} {seq0 : List String} {i0 : ℕ}
    {st : ChordsState} {ek sk : ℕ}
    (hinv : StrumInv u0 seq0 i0 st)
    (hlen : i0 < seq0.length)
    (hsel : ek ∉ SELECTION_NOTES)
    (hk : STRING_NUMBER ek = some sk)
    (hopp : 6 - sk = oppIdx u0) :
    ∃ st', chordsNoteOn st ek = ChordsStep.cont st' true := by
  obtain ⟨hst, hup, hnh, hseq, hidx, p, sp, hlast, hpsp, hpopp⟩ := hinv
  have hdup : ¬ some ek = st.lastNote := by
    rw [hlast]
    intro hcon
    have hekp : ek = p := by simpa using hcon
    subst hekp
    rw [hpsp] at hk
    exact hpopp ((Option.some.inj hk) ▸ hopp)
  simp only [chordsNoteOn,
    if_neg (fun h : ek ∈ SELECTION_NOTES ∧ (st.played.filterMap id).length ≤ 1 => hsel h.1),
    hk, if_neg hdup]
  cases u0 with
  | true =>
    simp only [oppIdx, cond] at hopp
    simp only [hst, hup, hnh, not_true, false_and, if_false,
      eq_self_iff_true, true_and, hopp, if_true, NotesHit.truthy,
      Bool.false_eq_true, not_false_iff, and_true, and_false]
    exact chordsProcess_match (by show st.idx < st.chordSeq.length; rw [hseq, hidx]; exact hlen)
  | false =>
    simp only [oppIdx, cond] at hopp
    simp only [hst, hup, hnh, not_true, false_and, if_false,
      eq_self_iff_true, true_and, hopp, if_true, NotesHit.truthy,
      Bool.false_eq_true, not_false_iff, and_true, and_false]
    exact chordsProcess_match (by show st.idx < st.chordSeq.length; rw [hseq, hidx]; exact hlen)

/-- A first event on an endpoint string starts a strum, establishing the
accumulation invariant with direction `up = (index ≠ 5)`. -/
theorem chords_step_start {st : ChordsState} {e0 s0 : ℕ}
    (hst : st.started = false) (hnh : st.notesHit = NotesHit.pyBool false)
    (hlast : st.lastNote = none)
    (hsel : e0 ∉ SELECTION_NOTES)
    (h0 : STRING_NUMBER e0 = some s0)
    (hend : 6 - s0 = 0 ∨ 6 - s0 = 5) :
    ∃ st', chordsNoteOn st e0 = ChordsStep.cont st' false
      ∧ StrumInv (decide (6 - s0 ≠ 5)) st.chordSeq st.idx st' := by
  have hdup : ¬ some e0 = st.lastNote := by
    rw [hlast]
    exact Option.noConfusion
  simp only [chordsNoteOn,
    if_neg (fun h : e0 ∈ SELECTION_NOTES ∧ (st.played.filterMap id).length ≤ 1 => hsel h.1),
    h0, if_neg hdup]
  rcases hend with hend | hend
  · rw [hend]
    simp only [hst, hnh, Bool.false_eq_true, not_false_iff, true_and, or_true,
      if_true, eq_self_iff_true, not_true, false_and, if_false,
      NotesHit.truthy, show (decide ((0:ℕ) ≠ 5)) = true from by decide,
      show ((0:ℕ) = 5) = False from by simp, and_false]
    exact ⟨_, rfl, rfl, rfl, rfl, rfl, rfl, e0, s0, rfl, h0,
      by rw [hend]; decide⟩
  · rw [hend]
    simp only [hst, hnh, Bool.false_eq_true, not_false_iff, true_and, true_or,
      if_true, eq_self_iff_true, not_true, false_and, if_false,
      NotesHit.truthy, show (decide ((5:ℕ) ≠ 5)) = false from by decide,
      show ((5:ℕ) = 0) = False from by simp, and_false]
    exact ⟨_, rfl, rfl, rfl, rfl, rfl, rfl, e0, s0, rfl, h0,
      by rw [hend]; decide⟩

/-- Running the machine from an accumulating state over non-opposite
events followed by the first opposite-endpoint event processes the chord
exactly once, at that last event. -/
theorem chordsRun_accumulate {u0 : Bool} {seq0 : List String} {i0 : ℕ}
    (hlen : i0 < seq0.length) :
    ∀ (mid : List ℕ) (st : ChordsState), StrumInv u0 seq0 i0 st →
    (∀ m ∈ mid, m ∉ SELECTION_NOTES ∧
      ∃ sm, STRING_NUMBER m = some sm ∧ 6 - sm ≠ oppIdx u0) →
    ∀ ek, ek ∉ SELECTION_NOTES →
    (∃ sk, STRING_NUMBER ek = some sk ∧ 6 - sk = oppIdx u0) →
    ∃ stf, chordsRun st (mid ++ [ek])
      = some (stf, List.replicate mid.length false ++ [true]) := by
  intro mid
  induction mid with
  | nil =>
    intro st hinv _ ek hksel ⟨sk, hk, hkopp⟩
    obtain ⟨st', hstep⟩ := chords_step_final hinv hlen hksel hk hkopp
    refine ⟨st', ?_⟩
    simp only [List.nil_append, List.replicate, chordsRun, hstep]
  | cons m mid ih =>
    intro st hinv hmid ek hksel hkex
    obtain ⟨hmsel, sm, hm, hmopp⟩ := hmid m (List.mem_cons_self m mid)
    obtain ⟨st', hstep, hinv'⟩ := chords_step_mid hinv hmsel hm hmopp
    obtain ⟨stf, hrun⟩ := ih st' hinv'
      (fun x hx => hmid x (List.mem_cons_of_mem m hx)) ek hksel hkex
    refine ⟨stf, ?_⟩
    rw [List.cons_append]
    simp only [chordsRun, hstep]
    rw [hrun]
    simp [List.replicate]

/-- C6 amended.  In `ChordTrainer.handle_midi` the claim holds: for a
fresh strum machine, a sequence that begins at an endpoint string and
whose later events (mapped, non-selection, arriving within the reset
window) first reach the opposite endpoint at the final event triggers
chord processing exactly once, at that final event, regardless of which
intermediate strings were struck or skipped.  In
`RegularPracticeMode.run`, by contrast, no strum ever completes at the
opposite-endpoint event: every note-on event reaches the three-argument
`add_note` call, raises TypeError and exits the session to the menu (and
even absent that fault, its completion condition is collecting all six
strings, not reaching the endpoint). -/
theorem claim_C6_amended :
    (∀ (st : ChordsState) (e0 s0 : ℕ) (mid : List ℕ) (ek : ℕ),
      st.started = false → st.notesHit = NotesHit.pyBool false →
      st.lastNote = none → st.idx < st.chordSeq.length →
      e0 ∉ SELECTION_NOTES → STRING_NUMBER e0 = some s0 →
      (6 - s0 = 0 ∨ 6 - s0 = 5) →
      (∀ m ∈ mid, m ∉ SELECTION_NOTES ∧
        ∃ sm, STRING_NUMBER m = some sm ∧
          6 - sm ≠ oppIdx (decide (6 - s0 ≠ 5))) →
      ek ∉ SELECTION_NOTES →
      (∃ sk, STRING_NUMBER ek = some sk ∧
        6 - sk = oppIdx (decide (6 - s0 ≠ 5))) →
      ∃ stf, chordsRun st (e0 :: (mid ++ [ek]))
        = some (stf, List.replicate (mid.length + 1) false ++ [true]))
    ∧ (∀ (st : PMState) (string_num fret_num note fret_pressed : ℕ),
        pmEventStep st (0x90, string_num, fret_num, note, fret_pressed)
          = PMStepOut.exitMenu true) := by
  constructor
  · intro st e0 s0 mid ek hst hnh hlast hidx h0sel h0 hend hmid hksel hkex
    obtain ⟨st1, hstep0, hinv1⟩ := chords_step_start hst hnh hlast h0sel h0 hend
    obtain ⟨stf, hrun⟩ := chordsRun_accumulate hidx mid st1 hinv1 hmid ek hksel hkex
    refine ⟨stf, ?_⟩
    simp only [chordsRun, hstep0]
    rw [hrun]
    simp [List.replicate]
  · intro st string_num fret_num note fret_pressed
    rfl

/-- Witness for the amended C6: a fresh machine, strum starting at string
6 (note 40), intermediate notes 45 and 50, completing at string 1
(note 64): processing fires exactly at the fourth event. -/
theorem claim_C6_witness :
    ∃ stf, chordsRun ⟨false, false, NotesHit.pyBool false,
        List.replicate 6 none, none, ["Em"], 0, "S", fun _ => 0⟩
        (40 :: ([45, 50] ++ [64]))
      = some (stf, List.replicate 3 false ++ [true]) :=
  claim_C6_amended.1 _ 40 6 [45, 50] 64 rfl rfl rfl (by decide) (by decide)
    (by decide) (by decide) (by decide) (by decide) ⟨1, by decide, by decide⟩

/-- C6 counterexample.  In `RegularPracticeMode.run` a sequence of
struck-string events beginning at one endpoint (transport string index 5)
and reaching the opposite endpoint (index 0) completes **zero** strums,
not one: the first note-on event hits the three-argument
`detector.add_note` call (practice_modes.py line 231, against the
one-argument `ChordDetector.add_note`), raises TypeError, and `run`
returns to the menu. -/
theorem claim_C6_counterexample :
    ((pmRunFlags ⟨["Em"], 0, "S", "Em", List.replicate 6 none,
        List.replicate 6 none, List.replicate 6 0, false, fun _ => 0⟩
        [(0x90, 5, 0, 40, 0), (0x90, 0, 0, 64, 0)]).1.count true) ≠ 1 := by
  decide

end GuitarTrainer
